import Mathlib

/-!
Shallow embedding of the password generator in src/utils/PasswordGenerator.ts.

Modelling conventions:
* Each JavaScript value produced by Math.round(Math.random() * k) is an
  integer uniformly drawn from 0..k.  We model every such draw site by an
  arbitrary natural number reduced modulo (k + 1), supplied through an
  explicit Draws record (one record per password position), so that every
  theorem quantifies over every possible sequence of random draws.
* The two rejection-sampling while-loops are modelled by rejectionLoop,
  which scans a draw stream with an explicit fuel bound and returns none
  when no draw within the bound is accepted (the source loop would still be
  running at that point).  A uniform random stream hits the accepting band
  with probability 1; the fuel hypotheses below are the formal counterpart
  of that almost-sure termination.
* Strings are modelled as List Char; a method's DOM output is modelled as
  the returned value, and the mutable this object is threaded explicitly,
  each method returning the (possibly updated) generator state.
* The TS symbol field is the string literal with its JavaScript escapes
  resolved: the escapes resolve to the 34 characters listed in symbols.
-/

/-- One entry of the strengthProbs table of the source. -/
structure StrengthProfile where
  number : Nat
  symbol : Nat
  letter : Nat
  barColor : String
  deriving Repr, DecidableEq

/-- Out-of-range profile-table reads in JS yield undefined; we read through
List.getD with this default, and claim C10 shows the default is never used
during generation from a well-formed state. -/
def defaultProfile : StrengthProfile :=
  { number := 0, symbol := 0, letter := 0, barColor := "" }

/-- The probability of the types of characters in each strength level
(constant strengthProbs of the source). -/
def strengthProbs : List StrengthProfile :=
  [ { number := 90, symbol := 5, letter := 100, barColor := "green" },
    { number := 80, symbol := 20, letter := 75, barColor := "yellow" },
    { number := 60, symbol := 40, letter := 30, barColor := "orange" },
    { number := 10, symbol := 80, letter := 10, barColor := "red" } ]

/-- Description of each strength level (field strengthTitles of the source). -/
def strengthTitles : List String := ["WEAK", "MEDIUM", "STRONG", "EXTREME"]

/-- The characters of the TS field
symbols = "/[!@#$%^&*()_+\-=\[\]{};':\\|,.<>\/?]+/" after resolving the
JavaScript string escapes (\- is -, \[ is [, \] is ], \\ is a single
backslash, \/ is /): 34 characters in total. -/
def symbols : List Char :=
  String.toList "/[!@#$%^&*()_+-=[]\x7b\x7d;\x27:\\|,.<>/?]+/"

/-- The configuration state of the PasswordGenerator class: the fields
charLength, symbols, passwordParts and strength.  The DOM handle of the
source is external I/O and is modelled by the values the methods return.
strength is stored as the raw ordinal, exactly as the setter stores its
numeric argument. -/
structure PasswordGenerator where
  charLength : Nat
  symbols : List Char
  passwordParts : List Bool
  strength : Nat
  deriving Repr, DecidableEq

/-- The random draws consumed while producing one password character:
a stream for the case-choice rejection loop of chooseLetter (used mod 2),
the letter draw (used mod 26), a stream for the rejection loop of
chooseNumOrSymbol (used mod 100), the symbol-index draw, the digit draw
(used mod 10) and the letter-vs-numOrSymbol selector (used mod 100). -/
structure Draws where
  caseStream : Nat → Nat
  letterDraw : Nat
  numSymStream : Nat → Nat
  symbolDraw : Nat
  digitDraw : Nat
  selector : Nat

/-- A while-loop that keeps drawing until the accept predicate holds,
modelled with fuel: returns the first accepted draw of the stream, or none
when no draw among the first fuel draws is accepted (the source loop would
still be spinning). -/
def rejectionLoop (accept : Nat → Bool) (stream : Nat → Nat) : Nat → Option Nat
  | 0 => none
  | fuel + 1 =>
      if accept (stream 0) then some (stream 0)
      else rejectionLoop accept (fun n => stream (n + 1)) fuel

/-- Acceptance test of the while-loop in chooseLetter:
while (!this.passwordParts[choice]).  Out-of-range reads are the JS
undefined, i.e. false. -/
def letterAccept (g : PasswordGenerator) (choice : Nat) : Bool :=
  g.passwordParts.getD choice false

/-- strengthProbs[this.strength].symbol as read in chooseNumOrSymbol. -/
def symbolProbOf (g : PasswordGenerator) : Nat :=
  (strengthProbs.getD g.strength defaultProfile).symbol

/-- Acceptance test of the while (true) loop in chooseNumOrSymbol:
break when (choice <= probs.symbol && parts[3]) ||
(choice > probs.symbol && parts[2]). -/
def numSymAccept (g : PasswordGenerator) (choice : Nat) : Bool :=
  (decide (choice ≤ symbolProbOf g) && g.passwordParts.getD 3 false)
    || (decide (symbolProbOf g < choice) && g.passwordParts.getD 2 false)

/-- Method chooseLetter of the source.  Returns the unchanged receiver and
the produced string; none models a never-terminating case loop. -/
def chooseLetter (g : PasswordGenerator) (d : Draws) (fuel : Nat) :
    PasswordGenerator × Option (List Char) :=
  if !(g.passwordParts.getD 0 false) && !(g.passwordParts.getD 1 false) then
    (g, some [])
  else
    match rejectionLoop (letterAccept g) (fun n => d.caseStream n % 2) fuel with
    | none => (g, none)
    | some choice =>
        let randomLetter := Char.ofNat (97 + d.letterDraw % 26)
        (g, some (if choice == 1 then [randomLetter] else [randomLetter.toUpper]))

/-- Method chooseNumOrSymbol of the source.  The initial draw of the source
is dead (overwritten on the first loop iteration before any use) and is not
modelled.  The symbol index is Math.round(Math.random() * (symbols.length - 1)),
i.e. a draw in 0..symbols.length-1; the digit branch is
Math.round(Math.random() * 9) rendered with toString. -/
def chooseNumOrSymbol (g : PasswordGenerator) (d : Draws) (fuel : Nat) :
    PasswordGenerator × Option (List Char) :=
  if !(g.passwordParts.getD 2 false) && !(g.passwordParts.getD 3 false) then
    (g, some [])
  else
    match rejectionLoop (numSymAccept g) (fun n => d.numSymStream n % 100) fuel with
    | none => (g, none)
    | some choice =>
        if choice ≤ symbolProbOf g then
          let symbolIndex := d.symbolDraw % (g.symbols.length - 1 + 1)
          (g, some [g.symbols.getD symbolIndex 'A'])
        else
          let randomNum := d.digitDraw % 10
          (g, some (Nat.repr randomNum).toList)

/-- The for-loop body of generatePassword, iterated count times starting at
position i: each position appends either the letter candidate or the
number/symbol candidate, chosen by
(choice <= probs.letter && letterChosen !== "") || numOrSymbol === "". -/
def generateLoop (draws : Nat → Draws) (fuel : Nat) :
    PasswordGenerator → Nat → Nat → PasswordGenerator × Option (List Char)
  | g, _, 0 => (g, some [])
  | g, i, count + 1 =>
      let r1 := chooseLetter g (draws i) fuel
      let r2 := chooseNumOrSymbol r1.1 (draws i) fuel
      let r := generateLoop draws fuel r2.1 (i + 1) count
      (r.1,
        match r1.2, r2.2, r.2 with
        | some letterChosen, some numOrSymbol, some rest =>
            some ((if (decide ((draws i).selector % 100 ≤
                        (strengthProbs.getD r2.1.strength defaultProfile).letter)
                      && !letterChosen.isEmpty) || numOrSymbol.isEmpty
                   then letterChosen else numOrSymbol) ++ rest)
        | _, _, _ => none)

/-- Method generatePassword of the source: charLength iterations of the
character loop; the resulting string is what the method writes to the
passRes DOM element. -/
def generatePassword (g : PasswordGenerator) (draws : Nat → Draws) (fuel : Nat) :
    PasswordGenerator × Option (List Char) :=
  generateLoop draws fuel g 0 g.charLength

/-- Method setPasswordStrength of the source.  It writes
strengthTitles[strength] to the DOM (undefined when out of range, modelled
by Option), assigns this.strength, then recolours each strength-level bar:
for every bar whose value is at most the new strength it reads
strengthProbs[this.strength].barColor, which in JS throws a TypeError when
the new strength is out of range; the Option-valued mapM models that throw
as none.  levelValues stands for the parseInt values of the DOM bars. -/
def setPasswordStrength (g : PasswordGenerator) (strength : Nat)
    (levelValues : List Nat) :
    PasswordGenerator × Option String × Option (List String) :=
  let g2 := { g with strength := strength }
  (g2, strengthTitles.get? strength,
    levelValues.mapM (fun v =>
      if v ≤ g2.strength then
        (strengthProbs.get? g2.strength).map (fun p => p.barColor)
      else some ""))

/-- true when the first fuel draws of the stream contain an accepted one. -/
def hitsAccept (accept : Nat → Bool) (stream : Nat → Nat) (fuel : Nat) : Bool :=
  (List.range fuel).any (fun n => accept (stream n))

/-- Both rejection loops of one character position find an accepted draw
within fuel steps (vacuous for a loop that is never entered because its
character classes are disabled). -/
def loopsTerminate (g : PasswordGenerator) (d : Draws) (fuel : Nat) : Bool :=
  (!(g.passwordParts.getD 0 false || g.passwordParts.getD 1 false)
      || hitsAccept (letterAccept g) (fun n => d.caseStream n % 2) fuel)
    && (!(g.passwordParts.getD 2 false || g.passwordParts.getD 3 false)
      || hitsAccept (numSymAccept g) (fun n => d.numSymStream n % 100) fuel)

/-- Number of draw values in 0..99 that the chooseNumOrSymbol loop accepts. -/
def acceptCount (g : PasswordGenerator) : Nat :=
  ((Finset.range 100).filter (fun c => numSymAccept g c = true)).card

/-- Number of draw values in 0..99 that the chooseNumOrSymbol loop accepts
and that fall into the symbol band choice <= probs.symbol. -/
def symbolEmitCount (g : PasswordGenerator) : Nat :=
  ((Finset.range 100).filter
    (fun c => numSymAccept g c = true ∧ c ≤ symbolProbOf g)).card

/-- Generator state right after new PasswordGenerator(7, dom): parts all
false, strength set to 1 by the constructor call to setPasswordStrength(1);
the constructor then refreshes length and checkboxes from the DOM, here
taken as slider value 7 and all boxes unchecked. -/
def initialGenerator : PasswordGenerator :=
  { charLength := 7, symbols := symbols,
    passwordParts := [false, false, false, false], strength := 1 }

/-! ### Helper lemmas about the rejection loop -/

theorem rejectionLoop_accept (accept : Nat → Bool) :
    ∀ (fuel : Nat) (stream : Nat → Nat) (c : Nat),
      rejectionLoop accept stream fuel = some c → accept c = true := by
  intro fuel
  induction fuel with
  | zero => intro stream c h; simp [rejectionLoop] at h
  | succ k ih =>
      intro stream c h
      simp only [rejectionLoop] at h
      by_cases hb : accept (stream 0) = true
      · rw [if_pos hb] at h
        cases h
        exact hb
      · rw [if_neg hb] at h
        exact ih _ _ h

theorem rejectionLoop_mem (accept : Nat → Bool) :
    ∀ (fuel : Nat) (stream : Nat → Nat) (c : Nat),
      rejectionLoop accept stream fuel = some c → ∃ n, stream n = c := by
  intro fuel
  induction fuel with
  | zero => intro stream c h; simp [rejectionLoop] at h
  | succ k ih =>
      intro stream c h
      simp only [rejectionLoop] at h
      by_cases hb : accept (stream 0) = true
      · rw [if_pos hb] at h
        cases h
        exact ⟨0, rfl⟩
      · rw [if_neg hb] at h
        obtain ⟨n, hn⟩ := ih _ _ h
        exact ⟨n + 1, hn⟩

theorem rejectionLoop_some (accept : Nat → Bool) :
    ∀ (fuel : Nat) (stream : Nat → Nat),
      (∃ n, n < fuel ∧ accept (stream n) = true) →
      ∃ c, rejectionLoop accept stream fuel = some c := by
  intro fuel
  induction fuel with
  | zero =>
      intro stream h
      obtain ⟨n, hn, _⟩ := h
      omega
  | succ k ih =>
      intro stream h
      by_cases hb : accept (stream 0) = true
      · exact ⟨stream 0, by simp [rejectionLoop, hb]⟩
      · obtain ⟨n, hn, ha⟩ := h
        match n, hn, ha with
        | 0, _, ha => exact absurd ha hb
        | m + 1, hn, ha =>
            obtain ⟨c, hc⟩ := ih (fun j => stream (j + 1)) ⟨m, by omega, ha⟩
            exact ⟨c, by simp [rejectionLoop, hb, hc]⟩

theorem hitsAccept_exists (accept : Nat → Bool) (stream : Nat → Nat) (fuel : Nat)
    (h : hitsAccept accept stream fuel = true) :
    ∃ n, n < fuel ∧ accept (stream n) = true := by
  unfold hitsAccept at h
  rw [List.any_eq_true] at h
  obtain ⟨n, hn, ha⟩ := h
  exact ⟨n, List.mem_range.1 hn, ha⟩

/-! ### Frame lemmas: none of the generation methods mutates the state -/

@[simp]
theorem chooseLetter_fst (g : PasswordGenerator) (d : Draws) (fuel : Nat) :
    (chooseLetter g d fuel).1 = g := by
  unfold chooseLetter
  split
  · rfl
  · split
    · rfl
    · rfl

@[simp]
theorem chooseNumOrSymbol_fst (g : PasswordGenerator) (d : Draws) (fuel : Nat) :
    (chooseNumOrSymbol g d fuel).1 = g := by
  unfold chooseNumOrSymbol
  split
  · rfl
  · split
    · rfl
    · split
      · rfl
      · rfl

@[simp]
theorem generateLoop_fst (draws : Nat → Draws) (fuel : Nat) :
    ∀ (count : Nat) (g : PasswordGenerator) (i : Nat),
      (generateLoop draws fuel g i count).1 = g := by
  intro count
  induction count with
  | zero => intro g i; rfl
  | succ k ih =>
      intro g i
      simp only [generateLoop]
      rw [ih, chooseNumOrSymbol_fst, chooseLetter_fst]

/-- One unfolding of the character loop, with the unchanged state already
substituted via the frame lemmas. -/
theorem generateLoop_succ (draws : Nat → Draws) (fuel : Nat)
    (g : PasswordGenerator) (i k : Nat) :
    generateLoop draws fuel g i (k + 1) =
      (g,
        match (chooseLetter g (draws i) fuel).2, (chooseNumOrSymbol g (draws i) fuel).2,
            (generateLoop draws fuel g (i + 1) k).2 with
        | some letterChosen, some numOrSymbol, some rest =>
            some ((if (decide ((draws i).selector % 100 ≤
                        (strengthProbs.getD g.strength defaultProfile).letter)
                      && !letterChosen.isEmpty) || numOrSymbol.isEmpty
                   then letterChosen else numOrSymbol) ++ rest)
        | _, _, _ => none) := by
  simp only [generateLoop, chooseLetter_fst, chooseNumOrSymbol_fst, generateLoop_fst]

/-! ### Shape of the candidates produced by chooseLetter / chooseNumOrSymbol -/

theorem chooseLetter_disabled (g : PasswordGenerator) (d : Draws) (fuel : Nat)
    (h0 : g.passwordParts.getD 0 false = false)
    (h1 : g.passwordParts.getD 1 false = false) :
    chooseLetter g d fuel = (g, some []) := by
  unfold chooseLetter
  rw [h0, h1]
  rfl

theorem chooseNumOrSymbol_disabled (g : PasswordGenerator) (d : Draws) (fuel : Nat)
    (h2 : g.passwordParts.getD 2 false = false)
    (h3 : g.passwordParts.getD 3 false = false) :
    chooseNumOrSymbol g d fuel = (g, some []) := by
  unfold chooseNumOrSymbol
  rw [h2, h3]
  rfl

theorem chooseLetter_enabled (g : PasswordGenerator) (d : Draws) (fuel : Nat)
    (hen : (g.passwordParts.getD 0 false || g.passwordParts.getD 1 false) = true)
    (hterm : ∃ n, n < fuel ∧ letterAccept g (d.caseStream n % 2) = true) :
    ∃ ch, chooseLetter g d fuel = (g, some [ch]) := by
  obtain ⟨c, hc⟩ := rejectionLoop_some (letterAccept g) fuel
    (fun n => d.caseStream n % 2) hterm
  have hguard : (!(g.passwordParts.getD 0 false)
      && !(g.passwordParts.getD 1 false)) = false := by
    cases hb0 : g.passwordParts.getD 0 false <;>
      cases hb1 : g.passwordParts.getD 1 false <;> simp_all
  unfold chooseLetter
  rw [hguard]
  simp only [Bool.false_eq_true, if_false, hc]
  cases hc1 : (c == 1) <;> simp [hc1]

theorem getD_mem_of_lt {α : Type} (l : List α) (i : Nat) (a : α)
    (h : i < l.length) : l.getD i a ∈ l := by
  induction l generalizing i with
  | nil => simp at h
  | cons x xs ih =>
      cases i with
      | zero => simp [List.getD]
      | succ j =>
          have := ih j (by simpa using h)
          simpa [List.getD] using List.mem_cons_of_mem x (by simpa [List.getD] using this)

theorem digit_list_eq (k : Nat) (h : k ≤ 9) :
    (Nat.repr k).toList = [Char.ofNat (48 + k)]
      ∧ 48 ≤ (Char.ofNat (48 + k)).toNat ∧ (Char.ofNat (48 + k)).toNat ≤ 57 := by
  interval_cases k <;> exact ⟨rfl, by decide, by decide⟩

theorem symbols_length : symbols.length = 34 := by decide

theorem chooseNumOrSymbol_enabled (g : PasswordGenerator) (d : Draws) (fuel : Nat)
    (hen : (g.passwordParts.getD 2 false || g.passwordParts.getD 3 false) = true)
    (hterm : ∃ n, n < fuel ∧ numSymAccept g (d.numSymStream n % 100) = true)
    (hsym : g.symbols = symbols) :
    ∃ ch, chooseNumOrSymbol g d fuel = (g, some [ch])
      ∧ (ch ∈ symbols ∨ (48 ≤ ch.toNat ∧ ch.toNat ≤ 57)) := by
  obtain ⟨c, hc⟩ := rejectionLoop_some (numSymAccept g) fuel
    (fun n => d.numSymStream n % 100) hterm
  have hguard : (!(g.passwordParts.getD 2 false)
      && !(g.passwordParts.getD 3 false)) = false := by
    cases hb2 : g.passwordParts.getD 2 false <;>
      cases hb3 : g.passwordParts.getD 3 false <;> simp_all
  unfold chooseNumOrSymbol
  rw [hguard]
  simp only [Bool.false_eq_true, if_false, hc]
  by_cases hcs : c ≤ symbolProbOf g
  · rw [if_pos hcs]
    refine ⟨g.symbols.getD (d.symbolDraw % (g.symbols.length - 1 + 1)) 'A', rfl, Or.inl ?_⟩
    rw [hsym]
    exact getD_mem_of_lt symbols _ 'A'
      (by rw [symbols_length]; exact Nat.mod_lt _ (by omega))
  · rw [if_neg hcs]
    obtain ⟨he, h48, h57⟩ := digit_list_eq (d.digitDraw % 10)
      (Nat.le_of_lt_succ (Nat.mod_lt _ (by omega)))
    exact ⟨Char.ofNat (48 + d.digitDraw % 10), by rw [he], Or.inr ⟨h48, h57⟩⟩

theorem chooseNumOrSymbol_enabled_shape (g : PasswordGenerator) (d : Draws) (fuel : Nat)
    (hen : (g.passwordParts.getD 2 false || g.passwordParts.getD 3 false) = true)
    (hterm : ∃ n, n < fuel ∧ numSymAccept g (d.numSymStream n % 100) = true) :
    ∃ ch, chooseNumOrSymbol g d fuel = (g, some [ch]) := by
  obtain ⟨c, hc⟩ := rejectionLoop_some (numSymAccept g) fuel
    (fun n => d.numSymStream n % 100) hterm
  have hguard : (!(g.passwordParts.getD 2 false)
      && !(g.passwordParts.getD 3 false)) = false := by
    cases hb2 : g.passwordParts.getD 2 false <;>
      cases hb3 : g.passwordParts.getD 3 false <;> simp_all
  unfold chooseNumOrSymbol
  rw [hguard]
  simp only [Bool.false_eq_true, if_false, hc]
  by_cases hcs : c ≤ symbolProbOf g
  · rw [if_pos hcs]
    exact ⟨_, rfl⟩
  · rw [if_neg hcs]
    obtain ⟨he, _, _⟩ := digit_list_eq (d.digitDraw % 10)
      (Nat.le_of_lt_succ (Nat.mod_lt _ (by omega)))
    exact ⟨Char.ofNat (48 + d.digitDraw % 10), by rw [he]⟩

/-- Each loop iteration appends exactly one character as soon as at least
one character class is enabled and the rejection loops of each position
find an accepted draw. -/
theorem generateLoop_length (g : PasswordGenerator) (draws : Nat → Draws) (fuel : Nat)
    (hen : (g.passwordParts.getD 0 false || g.passwordParts.getD 1 false
        || g.passwordParts.getD 2 false || g.passwordParts.getD 3 false) = true)
    (hterm : ∀ i, loopsTerminate g (draws i) fuel = true) :
    ∀ count i, ∃ s, generateLoop draws fuel g i count = (g, some s)
      ∧ s.length = count := by
  intro count
  induction count with
  | zero => intro i; exact ⟨[], rfl, rfl⟩
  | succ k ih =>
      intro i
      obtain ⟨rest, hrest, hlen⟩ := ih (i + 1)
      have ht := hterm i
      unfold loopsTerminate at ht
      rw [Bool.and_eq_true] at ht
      obtain ⟨ht1, ht2⟩ := ht
      rw [Bool.or_eq_true] at ht1 ht2
      have hletter : ∃ l1, chooseLetter g (draws i) fuel = (g, some l1) ∧
          (((g.passwordParts.getD 0 false || g.passwordParts.getD 1 false) = true
              ∧ ∃ ch, l1 = [ch]) ∨
           ((g.passwordParts.getD 0 false || g.passwordParts.getD 1 false) = false
              ∧ l1 = [])) := by
        cases h01 : (g.passwordParts.getD 0 false || g.passwordParts.getD 1 false) with
        | false =>
            obtain ⟨h0, h1⟩ := Bool.or_eq_false_iff.mp h01
            exact ⟨[], chooseLetter_disabled g (draws i) fuel h0 h1, Or.inr ⟨rfl, rfl⟩⟩
        | true =>
            rcases ht1 with hfalse | hhits
            · rw [h01] at hfalse; simp at hfalse
            · obtain ⟨ch, hch⟩ := chooseLetter_enabled g (draws i) fuel h01
                (hitsAccept_exists _ _ _ hhits)
              exact ⟨[ch], hch, Or.inl ⟨rfl, ch, rfl⟩⟩
      have hnumsym : ∃ l2, chooseNumOrSymbol g (draws i) fuel = (g, some l2) ∧
          (((g.passwordParts.getD 2 false || g.passwordParts.getD 3 false) = true
              ∧ ∃ ch, l2 = [ch]) ∨
           ((g.passwordParts.getD 2 false || g.passwordParts.getD 3 false) = false
              ∧ l2 = [])) := by
        cases h23 : (g.passwordParts.getD 2 false || g.passwordParts.getD 3 false) with
        | false =>
            obtain ⟨h2, h3⟩ := Bool.or_eq_false_iff.mp h23
            exact ⟨[], chooseNumOrSymbol_disabled g (draws i) fuel h2 h3, Or.inr ⟨rfl, rfl⟩⟩
        | true =>
            rcases ht2 with hfalse | hhits
            · rw [h23] at hfalse; simp at hfalse
            · obtain ⟨ch, hch⟩ := chooseNumOrSymbol_enabled_shape g (draws i) fuel h23
                (hitsAccept_exists _ _ _ hhits)
              exact ⟨[ch], hch, Or.inl ⟨rfl, ch, rfl⟩⟩
      obtain ⟨l1, hL, hl1⟩ := hletter
      obtain ⟨l2, hN, hl2⟩ := hnumsym
      have hL2 : (chooseLetter g (draws i) fuel).2 = some l1 := by rw [hL]
      have hN2 : (chooseNumOrSymbol g (draws i) fuel).2 = some l2 := by rw [hN]
      have hR2 : (generateLoop draws fuel g (i + 1) k).2 = some rest := by rw [hrest]
      refine ⟨(if (decide ((draws i).selector % 100 ≤
                  (strengthProbs.getD g.strength defaultProfile).letter)
                && !l1.isEmpty) || l2.isEmpty then l1 else l2) ++ rest, ?_, ?_⟩
      · rw [generateLoop_succ, hL2, hN2, hR2]
      · rw [List.length_append, hlen]
        have hpiece : (if (decide ((draws i).selector % 100 ≤
                  (strengthProbs.getD g.strength defaultProfile).letter)
                && !l1.isEmpty) || l2.isEmpty then l1 else l2).length = 1 := by
          rcases hl1 with ⟨h01, ch1, rfl⟩ | ⟨h01, rfl⟩ <;>
            rcases hl2 with ⟨h23, ch2, rfl⟩ | ⟨h23, rfl⟩
          · split <;> rfl
          · simp
          · simp
          · obtain ⟨h0, h1⟩ := Bool.or_eq_false_iff.mp h01
            obtain ⟨h2, h3⟩ := Bool.or_eq_false_iff.mp h23
            rw [h0, h1, h2, h3] at hen
            simp at hen
        rw [hpiece]
        omega

/-- With every character class disabled both candidates are empty, the
selector condition holds through numOrSymbol === "", and each iteration
appends the empty letter candidate. -/
theorem generateLoop_all_disabled (g : PasswordGenerator) (draws : Nat → Draws)
    (fuel : Nat)
    (h0 : g.passwordParts.getD 0 false = false)
    (h1 : g.passwordParts.getD 1 false = false)
    (h2 : g.passwordParts.getD 2 false = false)
    (h3 : g.passwordParts.getD 3 false = false) :
    ∀ count i, generateLoop draws fuel g i count = (g, some []) := by
  intro count
  induction count with
  | zero => intro i; rfl
  | succ k ih =>
      intro i
      have hL2 : (chooseLetter g (draws i) fuel).2 = some [] := by
        rw [chooseLetter_disabled g (draws i) fuel h0 h1]
      have hN2 : (chooseNumOrSymbol g (draws i) fuel).2 = some [] := by
        rw [chooseNumOrSymbol_disabled g (draws i) fuel h2 h3]
      have hR2 : (generateLoop draws fuel g (i + 1) k).2 = some [] := by
        rw [ih (i + 1)]
      rw [generateLoop_succ, hL2, hN2, hR2]
      simp

/-! ### Concrete states and draw records used by the witnesses -/

def gAll : PasswordGenerator :=
  { charLength := 3, symbols := symbols,
    passwordParts := [true, true, true, true], strength := 1 }

def gNumSym : PasswordGenerator :=
  { charLength := 2, symbols := symbols,
    passwordParts := [false, false, true, true], strength := 0 }

def gNumOnly : PasswordGenerator :=
  { charLength := 2, symbols := symbols,
    passwordParts := [false, false, true, false], strength := 1 }

def gUpper : PasswordGenerator :=
  { charLength := 1, symbols := symbols,
    passwordParts := [true, false, false, false], strength := 1 }

def gLower : PasswordGenerator :=
  { charLength := 1, symbols := symbols,
    passwordParts := [false, true, false, false], strength := 1 }

def gNone : PasswordGenerator :=
  { charLength := 5, symbols := symbols,
    passwordParts := [false, false, false, false], strength := 1 }

def dEx : Draws :=
  { caseStream := fun _ => 0, letterDraw := 0, numSymStream := fun _ => 50,
    symbolDraw := 0, digitDraw := 3, selector := 0 }

def dSym : Draws :=
  { caseStream := fun _ => 0, letterDraw := 0, numSymStream := fun _ => 7,
    symbolDraw := 0, digitDraw := 3, selector := 0 }

/-! ### Claim theorems -/

/-- Claim C1: for every targetLength (the stored charLength, a natural
number, hence automatically nonnegative), if at least one of the four
character classes is enabled then generatePassword returns a string of
length exactly charLength, for every sequence of random draws on which the
rejection loops return (hterm; a draw sequence that forever misses the
nonempty accepting band would keep the source loop spinning and is a
probability-zero event, see C5). -/
theorem generatePassword_length_exact (g : PasswordGenerator) (draws : Nat → Draws)
    (fuel : Nat)
    (hen : (g.passwordParts.getD 0 false || g.passwordParts.getD 1 false
        || g.passwordParts.getD 2 false || g.passwordParts.getD 3 false) = true)
    (hterm : ∀ i, loopsTerminate g (draws i) fuel = true) :
    ((generatePassword g draws fuel).2).map List.length = some g.charLength := by
  obtain ⟨s, hs, hlen⟩ := generateLoop_length g draws fuel hen hterm g.charLength 0
  unfold generatePassword
  rw [hs]
  show some s.length = some g.charLength
  rw [hlen]

theorem generatePassword_length_exact_witness :
    (gAll.passwordParts.getD 0 false || gAll.passwordParts.getD 1 false
        || gAll.passwordParts.getD 2 false || gAll.passwordParts.getD 3 false) = true
    ∧ ((generatePassword gAll (fun _ => dEx) 1).2).map List.length
        = some gAll.charLength :=
  ⟨by decide, generatePassword_length_exact gAll (fun _ => dEx) 1 (by decide)
      (fun _ => (by decide : loopsTerminate gAll dEx 1 = true))⟩

/-- Claim C3: if all four character-class toggles are disabled,
generatePassword returns the empty string, for every targetLength and every
sequence of random draws (here with no termination side condition at all:
neither rejection loop is ever entered). -/
theorem generatePassword_all_disabled_empty (g : PasswordGenerator)
    (draws : Nat → Draws) (fuel : Nat)
    (h0 : g.passwordParts.getD 0 false = false)
    (h1 : g.passwordParts.getD 1 false = false)
    (h2 : g.passwordParts.getD 2 false = false)
    (h3 : g.passwordParts.getD 3 false = false) :
    generatePassword g draws fuel = (g, some []) := by
  unfold generatePassword
  exact generateLoop_all_disabled g draws fuel h0 h1 h2 h3 g.charLength 0

theorem generatePassword_all_disabled_empty_witness :
    gNone.passwordParts.getD 0 false = false
    ∧ generatePassword gNone (fun _ => dEx) 0 = (gNone, some []) :=
  ⟨by decide, generatePassword_all_disabled_empty gNone (fun _ => dEx) 0
      (by decide) (by decide) (by decide) (by decide)⟩

/-- Claim C9: generatePassword, chooseLetter and chooseNumOrSymbol never
modify the generator configuration: for every starting state and every
sequence of draws the returned state (hence charLength, strength,
passwordParts and the symbol alphabet) is the input state. -/
theorem generation_preserves_state (g : PasswordGenerator) (draws : Nat → Draws)
    (fuel : Nat) (d : Draws) :
    (generatePassword g draws fuel).1 = g
      ∧ (chooseLetter g d fuel).1 = g
      ∧ (chooseNumOrSymbol g d fuel).1 = g :=
  ⟨generateLoop_fst draws fuel g.charLength g 0,
   chooseLetter_fst g d fuel, chooseNumOrSymbol_fst g d fuel⟩

/-- Claim C2 fails on the code: setPasswordStrength performs no validation.
Called on the freshly constructed generator (stored strength 1) with the
out-of-range ordinal 4 and the four UI bars 0..3, it stores 4 (the state IS
mutated, and the stored strength is no longer one of the four enumerants);
the title lookup strengthTitles[4] is undefined (none) and the bar-colour
update then hits strengthProbs[4].barColor, a TypeError (none) — but only
after the mutation. -/
theorem setPasswordStrength_invalid_mutates :
    (setPasswordStrength initialGenerator 4 [0, 1, 2, 3]).1.strength = 4
    ∧ initialGenerator.strength = 1
    ∧ (setPasswordStrength initialGenerator 4 [0, 1, 2, 3]).2.1 = none
    ∧ (setPasswordStrength initialGenerator 4 [0, 1, 2, 3]).2.2 = none := by
  refine ⟨rfl, rfl, ?_, rfl⟩
  decide

/-- Claim C2 amended: the strength setter stores ANY ordinal without
validation — the stored strength becomes the given ordinal (so out-of-range
strength states are reachable through the public setter) and no other
configuration field changes; for ordinals outside 0..3 the strength-title
lookup yields nothing, and the bar recolouring would fail only after the
state was already mutated. -/
theorem setPasswordStrength_stores_unvalidated (g : PasswordGenerator) (n : Nat)
    (lv : List Nat) :
    (setPasswordStrength g n lv).1.strength = n
    ∧ (setPasswordStrength g n lv).1.charLength = g.charLength
    ∧ (setPasswordStrength g n lv).1.passwordParts = g.passwordParts
    ∧ (setPasswordStrength g n lv).1.symbols = g.symbols
    ∧ (4 ≤ n → (setPasswordStrength g n lv).2.1 = none)
    ∧ (n < 4 → ((setPasswordStrength g n lv).2.1).isSome = true) := by
  refine ⟨rfl, rfl, rfl, rfl, ?_, ?_⟩
  · intro h
    show strengthTitles.get? n = none
    rw [List.get?_eq_none]
    exact h
  · intro h
    show (strengthTitles.get? n).isSome = true
    rw [List.get?_eq_get (by exact h)]
    rfl

theorem setPasswordStrength_stores_unvalidated_witness :
    4 ≤ 9
    ∧ (setPasswordStrength initialGenerator 9 [0, 1, 2, 3]).1.strength = 9
    ∧ (setPasswordStrength initialGenerator 9 [0, 1, 2, 3]).2.1 = none :=
  ⟨by decide,
   (setPasswordStrength_stores_unvalidated initialGenerator 9 [0, 1, 2, 3]).1,
   (setPasswordStrength_stores_unvalidated initialGenerator 9 [0, 1, 2, 3]).2.2.2.2.1
     (by decide)⟩

theorem symbolProb_lt_99 (g : PasswordGenerator) (hs : g.strength < 4) :
    symbolProbOf g < 99 := by
  have hc : g.strength = 0 ∨ g.strength = 1 ∨ g.strength = 2 ∨ g.strength = 3 := by
    omega
  unfold symbolProbOf
  rcases hc with h | h | h | h <;> rw [h] <;> decide

/-- Claim C5: the rejection loops always leave a nonempty accepting band —
if symbols are enabled the draw 0 is accepted, if numbers are enabled the
draw 99 is accepted (the symbol probability of every profile is below 99),
and if a letter case is enabled some case draw in 0..1 is accepted; each
loop returns as soon as its stream hits the band (which a uniform random
stream does with probability 1); and generatePassword terminates for every
configuration whose per-position streams hit their bands, including the
all-disabled configuration where no loop is entered. -/
theorem sampling_loops_terminate (g : PasswordGenerator) (hs : g.strength < 4) :
    (g.passwordParts.getD 3 false = true → numSymAccept g 0 = true)
    ∧ (g.passwordParts.getD 2 false = true → numSymAccept g 99 = true)
    ∧ ((g.passwordParts.getD 0 false || g.passwordParts.getD 1 false) = true →
        ∃ c, c ≤ 1 ∧ letterAccept g c = true)
    ∧ (∀ stream fuel, hitsAccept (numSymAccept g) stream fuel = true →
        ∃ c, rejectionLoop (numSymAccept g) stream fuel = some c)
    ∧ (∀ stream fuel, hitsAccept (letterAccept g) stream fuel = true →
        ∃ c, rejectionLoop (letterAccept g) stream fuel = some c)
    ∧ (∀ (draws : Nat → Draws) fuel,
        (∀ i, loopsTerminate g (draws i) fuel = true) →
        ((generatePassword g draws fuel).2).isSome = true) := by
  refine ⟨?_, ?_, ?_, ?_, ?_, ?_⟩
  · intro h3
    unfold numSymAccept
    rw [h3]
    simp
  · intro h2
    unfold numSymAccept
    rw [h2]
    simp
    exact Or.inr (symbolProb_lt_99 g hs)
  · intro hen
    cases hb0 : g.passwordParts.getD 0 false with
    | true => exact ⟨0, by omega, hb0⟩
    | false =>
        rw [hb0] at hen
        simp only [Bool.false_or] at hen
        exact ⟨1, by omega, hen⟩
  · intro stream fuel h
    exact rejectionLoop_some _ fuel stream (hitsAccept_exists _ _ _ h)
  · intro stream fuel h
    exact rejectionLoop_some _ fuel stream (hitsAccept_exists _ _ _ h)
  · intro draws fuel hterm
    cases h4 : (g.passwordParts.getD 0 false || g.passwordParts.getD 1 false
        || g.passwordParts.getD 2 false || g.passwordParts.getD 3 false) with
    | true =>
        obtain ⟨s, hs', _⟩ := generateLoop_length g draws fuel h4 hterm g.charLength 0
        unfold generatePassword
        rw [hs']
        rfl
    | false =>
        obtain ⟨h012, h3⟩ := Bool.or_eq_false_iff.mp h4
        obtain ⟨h01, h2⟩ := Bool.or_eq_false_iff.mp h012
        obtain ⟨h0, h1⟩ := Bool.or_eq_false_iff.mp h01
        rw [generatePassword_all_disabled_empty g draws fuel h0 h1 h2 h3]
        rfl

theorem sampling_loops_terminate_witness :
    gAll.strength < 4
    ∧ numSymAccept gAll 0 = true
    ∧ ((generatePassword gAll (fun _ => dEx) 1).2).isSome = true :=
  ⟨by decide,
   (sampling_loops_terminate gAll (by decide)).1 (by decide),
   (sampling_loops_terminate gAll (by decide)).2.2.2.2.2 (fun _ => dEx) 1
     (fun _ => (by decide : loopsTerminate gAll dEx 1 = true))⟩

/-- Claim C4: once the rejection loop of chooseNumOrSymbol accepts a value
c (necessarily in 0..99): if c lies in the band [0, symbolProbabilityPercent]
of the active profile the method emits the character of the fixed symbol
alphabet indexed by the fresh symbol draw reduced modulo 34 (direct
indexing, so uniform draws select uniformly over the 34 alphabet
positions), and that alphabet is exactly the characters of the TS
regex-literal string, slashes and brackets included (spelled below with
Char.ofNat 123, 125 and 39 for the two braces and the apostrophe);
otherwise it emits the decimal digit of the fresh digit draw reduced
modulo 10, a character between 0 and 9. -/
theorem chooseNumOrSymbol_symbol_or_digit (g : PasswordGenerator) (d : Draws)
    (fuel : Nat) (c : Nat)
    (hen : (g.passwordParts.getD 2 false || g.passwordParts.getD 3 false) = true)
    (hsym : g.symbols = symbols)
    (hloop : rejectionLoop (numSymAccept g) (fun n => d.numSymStream n % 100) fuel
      = some c) :
    numSymAccept g c = true
    ∧ c ≤ 99
    ∧ (c ≤ symbolProbOf g →
        (chooseNumOrSymbol g d fuel).2 = some [symbols.getD (d.symbolDraw % 34) 'A']
        ∧ symbols.getD (d.symbolDraw % 34) 'A' ∈ symbols)
    ∧ (symbolProbOf g < c →
        (chooseNumOrSymbol g d fuel).2 = some [Char.ofNat (48 + d.digitDraw % 10)]
        ∧ 48 ≤ (Char.ofNat (48 + d.digitDraw % 10)).toNat
        ∧ (Char.ofNat (48 + d.digitDraw % 10)).toNat ≤ 57)
    ∧ symbols = ['/', '[', '!', '@', '#', '$', '%', '^', '&', '*', '(', ')',
        '_', '+', '-', '=', '[', ']', Char.ofNat 123, Char.ofNat 125, ';',
        Char.ofNat 39, ':', '\\', '|', ',', '.', '<', '>', '/', '?', ']',
        '+', '/'] := by
  have hguard : (!(g.passwordParts.getD 2 false)
      && !(g.passwordParts.getD 3 false)) = false := by
    cases hb2 : g.passwordParts.getD 2 false <;>
      cases hb3 : g.passwordParts.getD 3 false <;> simp_all
  have hbody : (chooseNumOrSymbol g d fuel).2 =
      if c ≤ symbolProbOf g then
        some [g.symbols.getD (d.symbolDraw % (g.symbols.length - 1 + 1)) 'A']
      else some (Nat.repr (d.digitDraw % 10)).toList := by
    unfold chooseNumOrSymbol
    rw [hguard]
    simp only [Bool.false_eq_true, if_false, hloop]
    by_cases hcs : c ≤ symbolProbOf g
    · rw [if_pos hcs, if_pos hcs]
    · rw [if_neg hcs, if_neg hcs]
  have hidx : g.symbols.length - 1 + 1 = 34 := by rw [hsym, symbols_length]
  refine ⟨rejectionLoop_accept _ fuel _ c hloop, ?_, ?_, ?_, by decide⟩
  · obtain ⟨n, hn⟩ := rejectionLoop_mem _ fuel _ c hloop
    have hmod : d.numSymStream n % 100 < 100 := Nat.mod_lt _ (by omega)
    omega
  · intro hcs
    rw [hbody, if_pos hcs, hidx, hsym]
    exact ⟨rfl, getD_mem_of_lt symbols _ 'A'
      (by rw [symbols_length]; exact Nat.mod_lt _ (by omega))⟩
  · intro hcs
    rw [hbody, if_neg (by omega)]
    obtain ⟨he, h48, h57⟩ := digit_list_eq (d.digitDraw % 10)
      (Nat.le_of_lt_succ (Nat.mod_lt _ (by omega)))
    exact ⟨by rw [he], h48, h57⟩

theorem chooseNumOrSymbol_symbol_or_digit_witness :
    (chooseNumOrSymbol gAll dSym 1).2 = some [symbols.getD (dSym.symbolDraw % 34) 'A'] :=
  ((chooseNumOrSymbol_symbol_or_digit gAll dSym 1 7 (by decide) rfl
      (by decide)).2.2.1 (by decide)).1

theorem upper_char_bounds (m : Nat) (hm : m < 26) :
    65 ≤ ((Char.ofNat (97 + m)).toUpper).toNat
      ∧ ((Char.ofNat (97 + m)).toUpper).toNat ≤ 90 := by
  interval_cases m <;> exact ⟨by decide, by decide⟩

theorem lower_char_bounds (m : Nat) (hm : m < 26) :
    97 ≤ (Char.ofNat (97 + m)).toNat ∧ (Char.ofNat (97 + m)).toNat ≤ 122 := by
  interval_cases m <;> exact ⟨by decide, by decide⟩

/-- Claim C8: with only the uppercase toggle enabled every letter produced
by chooseLetter is an uppercase ASCII letter (the case loop can only accept
choice 0, and choice 0 takes the toUpperCase branch); with only the
lowercase toggle enabled every letter produced is lowercase (the loop can
only accept choice 1, the plain branch) — for every sequence of draws.
generatePassword obtains letters exclusively from chooseLetter, so the same
holds for every letter of its output. -/
theorem chooseLetter_case_respects_toggles (g : PasswordGenerator) (d : Draws)
    (fuel : Nat) (l : List Char) :
    (g.passwordParts.getD 0 false = true → g.passwordParts.getD 1 false = false →
      (chooseLetter g d fuel).2 = some l →
      ∃ ch, l = [ch] ∧ 65 ≤ ch.toNat ∧ ch.toNat ≤ 90)
    ∧ (g.passwordParts.getD 0 false = false → g.passwordParts.getD 1 false = true →
      (chooseLetter g d fuel).2 = some l →
      ∃ ch, l = [ch] ∧ 97 ≤ ch.toNat ∧ ch.toNat ≤ 122) := by
  have hm : d.letterDraw % 26 < 26 := Nat.mod_lt _ (by omega)
  constructor
  · intro hp0 hp1 hl
    have hguard : (!(g.passwordParts.getD 0 false)
        && !(g.passwordParts.getD 1 false)) = false := by rw [hp0]; rfl
    unfold chooseLetter at hl
    rw [hguard] at hl
    simp only [Bool.false_eq_true, if_false] at hl
    cases hc : rejectionLoop (letterAccept g) (fun n => d.caseStream n % 2) fuel with
    | none => rw [hc] at hl; simp at hl
    | some c =>
        rw [hc] at hl
        simp only [] at hl
        have hacc := rejectionLoop_accept _ fuel _ c hc
        obtain ⟨n, hn⟩ := rejectionLoop_mem _ fuel _ c hc
        have hc2 : c < 2 := by rw [← hn]; exact Nat.mod_lt _ (by omega)
        interval_cases c
        · simp only [Nat.zero_eq, show ((0 : Nat) == 1) = false from rfl,
            Bool.false_eq_true, if_false, Option.some.injEq] at hl
          obtain ⟨h65, h90⟩ := upper_char_bounds (d.letterDraw % 26) hm
          exact ⟨(Char.ofNat (97 + d.letterDraw % 26)).toUpper, hl.symm, h65, h90⟩
        · unfold letterAccept at hacc
          rw [hp1] at hacc
          exact absurd hacc (by decide)
  · intro hp0 hp1 hl
    have hguard : (!(g.passwordParts.getD 0 false)
        && !(g.passwordParts.getD 1 false)) = false := by rw [hp1]; simp
    unfold chooseLetter at hl
    rw [hguard] at hl
    simp only [Bool.false_eq_true, if_false] at hl
    cases hc : rejectionLoop (letterAccept g) (fun n => d.caseStream n % 2) fuel with
    | none => rw [hc] at hl; simp at hl
    | some c =>
        rw [hc] at hl
        simp only [] at hl
        have hacc := rejectionLoop_accept _ fuel _ c hc
        obtain ⟨n, hn⟩ := rejectionLoop_mem _ fuel _ c hc
        have hc2 : c < 2 := by rw [← hn]; exact Nat.mod_lt _ (by omega)
        interval_cases c
        · unfold letterAccept at hacc
          rw [hp0] at hacc
          exact absurd hacc (by decide)
        · simp only [show ((1 : Nat) == 1) = true from rfl, if_true,
            Option.some.injEq] at hl
          obtain ⟨h97, h122⟩ := lower_char_bounds (d.letterDraw % 26) hm
          exact ⟨Char.ofNat (97 + d.letterDraw % 26), hl.symm, h97, h122⟩

theorem chooseLetter_case_respects_toggles_witness :
    (chooseLetter gUpper dEx 1).2 = some ['A']
    ∧ 65 ≤ Char.toNat 'A' ∧ Char.toNat 'A' ≤ 90 := by
  have h := (chooseLetter_case_respects_toggles gUpper dEx 1 ['A']).1
    (by decide) (by decide) (by decide)
  obtain ⟨ch, hch, h65, h90⟩ := h
  have : ch = 'A' := by
    have := hch.symm
    simp only [List.cons.injEq, and_true] at this
    exact this
  subst this
  exact ⟨by decide, h65, h90⟩

theorem chooseNumOrSymbol_result_chars (g : PasswordGenerator) (d : Draws)
    (fuel : Nat) (l : List Char)
    (hsym : g.symbols = symbols)
    (h : (chooseNumOrSymbol g d fuel).2 = some l) :
    ∀ ch ∈ l, ch ∈ symbols ∨ (48 ≤ ch.toNat ∧ ch.toNat ≤ 57) := by
  unfold chooseNumOrSymbol at h
  split at h
  · simp only [Option.some.injEq] at h
    rw [← h]
    intro ch hch
    simp at hch
  · split at h
    · simp at h
    · split at h
      · simp only [Option.some.injEq] at h
        rw [← h]
        intro ch hch
        simp only [List.mem_singleton] at hch
        subst hch
        left
        rw [hsym, symbols_length]
        exact getD_mem_of_lt symbols _ 'A'
          (by rw [symbols_length]; exact Nat.mod_lt _ (by omega))
      · simp only [Option.some.injEq] at h
        rw [← h]
        obtain ⟨he, h48, h57⟩ := digit_list_eq (d.digitDraw % 10)
          (Nat.le_of_lt_succ (Nat.mod_lt _ (by omega)))
        rw [he]
        intro ch hch
        simp only [List.mem_singleton] at hch
        subst hch
        exact Or.inr ⟨h48, h57⟩

theorem generateLoop_no_letters (g : PasswordGenerator) (draws : Nat → Draws)
    (fuel : Nat)
    (h0 : g.passwordParts.getD 0 false = false)
    (h1 : g.passwordParts.getD 1 false = false)
    (hsym : g.symbols = symbols) :
    ∀ count i s, (generateLoop draws fuel g i count).2 = some s →
      ∀ ch ∈ s, ch ∈ symbols ∨ (48 ≤ ch.toNat ∧ ch.toNat ≤ 57) := by
  intro count
  induction count with
  | zero =>
      intro i s hS
      simp only [generateLoop, Option.some.injEq] at hS
      rw [← hS]
      intro ch hch
      simp at hch
  | succ k ih =>
      intro i s hS
      rw [generateLoop_succ] at hS
      have hL2 : (chooseLetter g (draws i) fuel).2 = some [] := by
        rw [chooseLetter_disabled g (draws i) fuel h0 h1]
      rw [hL2] at hS
      cases hN : (chooseNumOrSymbol g (draws i) fuel).2 with
      | none => rw [hN] at hS; simp at hS
      | some l2 =>
          rw [hN] at hS
          cases hR : (generateLoop draws fuel g (i + 1) k).2 with
          | none => rw [hR] at hS; simp at hS
          | some rest =>
              rw [hR] at hS
              simp only [List.isEmpty_nil, Bool.not_true, Bool.and_false,
                Bool.false_or, Option.some.injEq] at hS
              have hrest := ih (i + 1) rest hR
              have hl2 := chooseNumOrSymbol_result_chars g (draws i) fuel l2 hsym hN
              cases he : l2.isEmpty with
              | true =>
                  rw [he, if_pos rfl] at hS
                  rw [← hS]
                  intro ch hch
                  simp only [List.nil_append] at hch
                  exact hrest ch hch
              | false =>
                  rw [he] at hS
                  simp only [Bool.false_eq_true, if_false] at hS
                  rw [← hS]
                  intro ch hch
                  rcases List.mem_append.mp hch with hm | hm
                  · exact hl2 ch hm
                  · exact hrest ch hm

theorem symbols_not_letters :
    ∀ ch ∈ symbols, ¬(65 ≤ ch.toNat ∧ ch.toNat ≤ 90)
      ∧ ¬(97 ≤ ch.toNat ∧ ch.toNat ≤ 122) := by decide

/-- Claim C7: with both letter toggles disabled (and numbers or symbols
enabled) every character of the generated password is a digit or one of the
34 symbol-alphabet characters, and never an ASCII letter, for every
targetLength and every sequence of draws on which generation returns. -/
theorem no_letters_when_letters_disabled (g : PasswordGenerator)
    (draws : Nat → Draws) (fuel : Nat) (s : List Char)
    (h0 : g.passwordParts.getD 0 false = false)
    (h1 : g.passwordParts.getD 1 false = false)
    (_hen : (g.passwordParts.getD 2 false || g.passwordParts.getD 3 false) = true)
    (hsym : g.symbols = symbols)
    (hgen : (generatePassword g draws fuel).2 = some s) :
    ∀ ch ∈ s, (ch ∈ symbols ∨ (48 ≤ ch.toNat ∧ ch.toNat ≤ 57))
      ∧ ¬(65 ≤ ch.toNat ∧ ch.toNat ≤ 90) ∧ ¬(97 ≤ ch.toNat ∧ ch.toNat ≤ 122) := by
  intro ch hch
  have hclass := generateLoop_no_letters g draws fuel h0 h1 hsym g.charLength 0 s
    hgen ch hch
  refine ⟨hclass, ?_⟩
  rcases hclass with hm | ⟨h48, h57⟩
  · exact symbols_not_letters ch hm
  · exact ⟨by omega, by omega⟩

theorem no_letters_when_letters_disabled_witness :
    ((Char.ofNat 51 ∈ symbols ∨ (48 ≤ (Char.ofNat 51).toNat
        ∧ (Char.ofNat 51).toNat ≤ 57))
      ∧ ¬(65 ≤ (Char.ofNat 51).toNat ∧ (Char.ofNat 51).toNat ≤ 90)
      ∧ ¬(97 ≤ (Char.ofNat 51).toNat ∧ (Char.ofNat 51).toNat ≤ 122)) :=
  no_letters_when_letters_disabled gNumOnly (fun _ => dEx) 1
    [Char.ofNat 51, Char.ofNat 51] (by decide) (by decide) (by decide) rfl
    (by decide) (Char.ofNat 51) (by decide)

theorem acceptCount_all (g : PasswordGenerator)
    (h2 : g.passwordParts.getD 2 false = true)
    (h3 : g.passwordParts.getD 3 false = true) :
    acceptCount g = 100 := by
  unfold acceptCount
  have hfil : (Finset.range 100).filter (fun c => numSymAccept g c = true)
      = Finset.range 100 := by
    apply Finset.filter_true_of_mem
    intro c _
    unfold numSymAccept
    rw [h2, h3]
    rcases le_or_lt c (symbolProbOf g) with h | h
    · have hd : decide (c ≤ symbolProbOf g) = true := decide_eq_true h
      simp [hd]
    · have hd : decide (symbolProbOf g < c) = true := decide_eq_true h
      simp [hd]
  rw [hfil, Finset.card_range]

theorem symbolEmitCount_eq (g : PasswordGenerator)
    (h3 : g.passwordParts.getD 3 false = true)
    (h99 : symbolProbOf g ≤ 99) :
    symbolEmitCount g = symbolProbOf g + 1 := by
  unfold symbolEmitCount
  have hfil : (Finset.range 100).filter
      (fun c => numSymAccept g c = true ∧ c ≤ symbolProbOf g)
      = Finset.range (symbolProbOf g + 1) := by
    ext c
    simp only [Finset.mem_filter, Finset.mem_range]
    constructor
    · rintro ⟨_, _, hc⟩
      omega
    · intro hc
      have hcle : c ≤ symbolProbOf g := by omega
      refine ⟨by omega, ?_, hcle⟩
      unfold numSymAccept
      rw [h3]
      have hd : decide (c ≤ symbolProbOf g) = true := decide_eq_true hcle
      simp [hd]
  rw [hfil, Finset.card_range]

/-- Claim C6: with only numbers and symbols enabled, every draw value in
0..99 is accepted by the rejection loop, and the values that take the
symbol branch are exactly the band 0..symbolProbabilityPercent: 6 of 100
at Weak (within one percentage point of the stated 5 percent — the band
[0,5] is inclusive), 21, 41 and 81 of 100 at the other levels, strictly
monotonically increasing Weak to VeryStrong per the table 5, 20, 40, 80.
Under the uniform draw model the per-character symbol probability is
therefore symbolEmitCount/acceptCount, i.e. approximately the table value,
and increasing in the strength. -/
theorem symbol_probability_table (g : PasswordGenerator)
    (hp : g.passwordParts = [false, false, true, true]) :
    (∀ c, c ≤ 99 → numSymAccept { g with strength := 0 } c = true)
    ∧ acceptCount { g with strength := 0 } = 100
    ∧ acceptCount { g with strength := 1 } = 100
    ∧ acceptCount { g with strength := 2 } = 100
    ∧ acceptCount { g with strength := 3 } = 100
    ∧ symbolEmitCount { g with strength := 0 } = 6
    ∧ symbolEmitCount { g with strength := 1 } = 21
    ∧ symbolEmitCount { g with strength := 2 } = 41
    ∧ symbolEmitCount { g with strength := 3 } = 81
    ∧ symbolEmitCount { g with strength := 0 }
        < symbolEmitCount { g with strength := 1 }
    ∧ symbolEmitCount { g with strength := 1 }
        < symbolEmitCount { g with strength := 2 }
    ∧ symbolEmitCount { g with strength := 2 }
        < symbolEmitCount { g with strength := 3 } := by
  have hparts : ∀ s : Nat,
      ({ g with strength := s } : PasswordGenerator).passwordParts
        = [false, false, true, true] := fun s => hp
  have h2s : ∀ s : Nat,
      ({ g with strength := s } : PasswordGenerator).passwordParts.getD 2 false
        = true := fun s => by rw [hparts s]; rfl
  have h3s : ∀ s : Nat,
      ({ g with strength := s } : PasswordGenerator).passwordParts.getD 3 false
        = true := fun s => by rw [hparts s]; rfl
  have hp0 : symbolProbOf { g with strength := 0 } = 5 := rfl
  have hp1 : symbolProbOf { g with strength := 1 } = 20 := rfl
  have hp2 : symbolProbOf { g with strength := 2 } = 40 := rfl
  have hp3 : symbolProbOf { g with strength := 3 } = 80 := rfl
  have he0 : symbolEmitCount { g with strength := 0 } = 6 := by
    rw [symbolEmitCount_eq _ (h3s 0) (by rw [hp0]; omega), hp0]
  have he1 : symbolEmitCount { g with strength := 1 } = 21 := by
    rw [symbolEmitCount_eq _ (h3s 1) (by rw [hp1]; omega), hp1]
  have he2 : symbolEmitCount { g with strength := 2 } = 41 := by
    rw [symbolEmitCount_eq _ (h3s 2) (by rw [hp2]; omega), hp2]
  have he3 : symbolEmitCount { g with strength := 3 } = 81 := by
    rw [symbolEmitCount_eq _ (h3s 3) (by rw [hp3]; omega), hp3]
  refine ⟨?_, acceptCount_all _ (h2s 0) (h3s 0), acceptCount_all _ (h2s 1) (h3s 1),
    acceptCount_all _ (h2s 2) (h3s 2), acceptCount_all _ (h2s 3) (h3s 3),
    he0, he1, he2, he3, by omega, by omega, by omega⟩
  intro c hc
  unfold numSymAccept
  rw [h3s 0, h2s 0]
  rcases le_or_lt c (symbolProbOf { g with strength := 0 }) with h | h
  · have hd : decide (c ≤ symbolProbOf { g with strength := 0 }) = true :=
      decide_eq_true h
    simp [hd]
  · have hd : decide (symbolProbOf { g with strength := 0 } < c) = true :=
      decide_eq_true h
    simp [hd]

theorem symbol_probability_table_witness :
    symbolEmitCount { gNumSym with strength := 0 } = 6
    ∧ symbolEmitCount { gNumSym with strength := 3 } = 81
    ∧ symbolEmitCount { gNumSym with strength := 0 }
        < symbolEmitCount { gNumSym with strength := 1 } :=
  ⟨(symbol_probability_table gNumSym rfl).2.2.2.2.2.1,
   (symbol_probability_table gNumSym rfl).2.2.2.2.2.2.2.2.1,
   (symbol_probability_table gNumSym rfl).2.2.2.2.2.2.2.2.2.1⟩

/-- Claim C10: from a well-formed state (strength in 0..3, four toggle
entries, the fixed 34-character alphabet) every indexed access of the
generation path is in bounds: strengthProbs[strength] is a defined profile,
the case choice accepted by the chooseLetter loop is 0 or 1 and in
particular a valid passwordParts index, and every symbol index
draw % (symbols.length - 1 + 1) is at most symbols.length - 1. -/
theorem generation_indices_in_bounds (g : PasswordGenerator)
    (hs : g.strength < 4) (h4 : g.passwordParts.length = 4)
    (hsym : g.symbols = symbols) :
    g.strength < strengthProbs.length
    ∧ (strengthProbs.get? g.strength).isSome = true
    ∧ (∀ (d : Draws) (fuel c : Nat),
        rejectionLoop (letterAccept g) (fun n => d.caseStream n % 2) fuel = some c →
        c ≤ 1 ∧ c < g.passwordParts.length)
    ∧ (∀ dr : Nat, dr % (g.symbols.length - 1 + 1) ≤ g.symbols.length - 1) := by
  have hlen : strengthProbs.length = 4 := rfl
  refine ⟨by omega, ?_, ?_, ?_⟩
  · rw [List.get?_eq_get (by omega)]
    rfl
  · intro d fuel c hc
    obtain ⟨n, hn⟩ := rejectionLoop_mem _ fuel _ c hc
    have hc2 : c < 2 := by
      rw [← hn]
      exact Nat.mod_lt _ (by omega)
    exact ⟨by omega, by rw [h4]; omega⟩
  · intro dr
    have h34 : g.symbols.length = 34 := by rw [hsym]; exact symbols_length
    rw [h34]
    have := Nat.mod_lt dr (show 0 < 34 - 1 + 1 by omega)
    omega

theorem generation_indices_in_bounds_witness :
    gAll.strength < strengthProbs.length
    ∧ (0 : Nat) % (gAll.symbols.length - 1 + 1) ≤ gAll.symbols.length - 1 :=
  ⟨(generation_indices_in_bounds gAll (by decide) (by decide) rfl).1,
   (generation_indices_in_bounds gAll (by decide) (by decide) rfl).2.2.2 0⟩
